import Mathlib

/-!
Verification of the convolution building blocks in `module.py`:
`NonCausalConv1d`, `CausalConv1d` and `Highway`.

A tensor of shape (batch, channels, seq_len) is modelled as its three
dimensions together with a total data function; entries are rationals
(the claims under study are exact algebraic identities, shape facts and
information-flow facts that do not depend on floating-point rounding).
`torch.nn.Conv1d(in, out, K, 1, padding, dilation)` is modelled by its
documented semantics: zero-pad the sequence axis by `padding` on both
sides, then cross-correlate with stride 1 and the given dilation; the
output sequence length is `L + 2*padding - dilation*(K-1)`, and the call
fails (PyTorch raises) when that length is not positive or when the
input channel count differs from the configured one.  Failure is
modelled by `Option`.  Elementwise products and sums used by `Highway`
follow PyTorch broadcasting on each of the three axes.  `F.sigmoid` is
kept as an abstract scalar parameter `σ` of `Highway.forward`, since no
claim depends on its pointwise values.
-/

namespace DCTTS

/-- A 3-axis tensor (batch, channels, sequence positions) with rational
entries; `data` is total, positions outside the dimensions are irrelevant. -/
structure Tensor3 where
  batch : Nat
  channels : Nat
  len : Nat
  data : Nat → Nat → Nat → ℚ

/-- The parameters of a `torch.nn.Conv1d` layer with stride 1:
`weight oc ic k` and `bias oc`. -/
structure Conv1d where
  in_channels : Nat
  out_channels : Nat
  kernel_size : Nat
  padding : Nat
  dilation : Nat
  weight : Nat → Nat → Nat → ℚ
  bias : Nat → ℚ

/-- Output sequence length of `nn.Conv1d` with stride 1 on an input of
length `L` (may be nonpositive, in which case PyTorch raises). -/
def Conv1d.outLen (c : Conv1d) (L : Nat) : Int :=
  (L : Int) + 2 * (c.padding : Int) - ((c.dilation * (c.kernel_size - 1) : Nat) : Int)

/-- The input seen through the symmetric zero padding: position `i` of the
padded sequence. -/
def Conv1d.padded (c : Conv1d) (x : Tensor3) (b ch i : Nat) : ℚ :=
  if c.padding ≤ i ∧ i < c.padding + x.len then x.data b ch (i - c.padding) else 0

/-- The entries of the `nn.Conv1d` output: cross-correlation with stride 1
over the padded input. -/
def Conv1d.outData (c : Conv1d) (x : Tensor3) (b oc t : Nat) : ℚ :=
  c.bias oc +
    ∑ ic ∈ Finset.range c.in_channels, ∑ k ∈ Finset.range c.kernel_size,
      c.weight oc ic k * c.padded x b ic (t + k * c.dilation)

/-- `nn.Conv1d` forward.  `none` models the shape error PyTorch raises when
the channel count mismatches or the output would be empty. -/
def Conv1d.forward (c : Conv1d) (x : Tensor3) : Option Tensor3 :=
  if x.channels = c.in_channels ∧ 1 ≤ c.outLen x.len then
    some { batch := x.batch
           channels := c.out_channels
           len := (c.outLen x.len).toNat
           data := c.outData x }
  else none

/-- `NonCausalConv1d`: a `Conv1d` whose padding is `(kernel_size-1)*dilation // 2`. -/
structure NonCausalConv1d where
  conv : Conv1d

/-- `NonCausalConv1d.__init__`. -/
def NonCausalConv1d.init (in_channels out_channels kernel_size dilation : Nat)
    (w : Nat → Nat → Nat → ℚ) (bias : Nat → ℚ) : NonCausalConv1d :=
  ⟨{ in_channels := in_channels, out_channels := out_channels,
     kernel_size := kernel_size, padding := (kernel_size - 1) * dilation / 2,
     dilation := dilation, weight := w, bias := bias }⟩

/-- `NonCausalConv1d.forward`: just the inner convolution. -/
def NonCausalConv1d.forward (m : NonCausalConv1d) (x : Tensor3) : Option Tensor3 :=
  m.conv.forward x

/-- `CausalConv1d`: a `Conv1d` whose padding is `(kernel_size-1)*dilation`,
with the padding amount remembered for the right trim. -/
structure CausalConv1d where
  padding : Nat
  conv : Conv1d

/-- `CausalConv1d.__init__`. -/
def CausalConv1d.init (in_channels out_channels kernel_size dilation : Nat)
    (w : Nat → Nat → Nat → ℚ) (bias : Nat → ℚ) : CausalConv1d :=
  { padding := (kernel_size - 1) * dilation
    conv := { in_channels := in_channels, out_channels := out_channels,
              kernel_size := kernel_size, padding := (kernel_size - 1) * dilation,
              dilation := dilation, weight := w, bias := bias } }

/-- `CausalConv1d.forward`: convolve, then `x[:,:,:-padding]` when
`padding > 0` (Python slicing truncates at 0 when the length is short). -/
def CausalConv1d.forward (m : CausalConv1d) (x : Tensor3) : Option Tensor3 :=
  match m.conv.forward x with
  | none => none
  | some y =>
    if 0 < m.padding then
      some { batch := y.batch, channels := y.channels, len := y.len - m.padding,
             data := y.data }
    else
      some y

/-- One axis of PyTorch broadcasting: equal sizes, or one of them is 1. -/
def bcastDim (a b : Nat) : Option Nat :=
  if a = b then some a else if a = 1 then some b else if b = 1 then some a else none

/-- Index into an operand along a broadcast axis: a size-1 axis is read at 0. -/
def bidx (dim i : Nat) : Nat :=
  if dim = 1 then 0 else i

/-- Elementwise binary operation with PyTorch broadcasting on every axis;
`none` models the shape-mismatch error. -/
def Tensor3.zipWith (f : ℚ → ℚ → ℚ) (x y : Tensor3) : Option Tensor3 :=
  match bcastDim x.batch y.batch, bcastDim x.channels y.channels, bcastDim x.len y.len with
  | some B, some C, some L =>
    some { batch := B, channels := C, len := L,
           data := fun b c t =>
             f (x.data (bidx x.batch b) (bidx x.channels c) (bidx x.len t))
               (y.data (bidx y.batch b) (bidx y.channels c) (bidx y.len t)) }
  | _, _, _ => none

/-- Elementwise unary operation. -/
def Tensor3.map (f : ℚ → ℚ) (x : Tensor3) : Tensor3 :=
  { x with data := fun b c t => f (x.data b c t) }

/-- The convolution held by a `Highway` layer: causal or non-causal,
chosen at construction. -/
inductive HighwayConv where
  | causal (c : CausalConv1d)
  | noncausal (c : NonCausalConv1d)

/-- Forward through whichever convolution the highway layer holds. -/
def HighwayConv.forward : HighwayConv → Tensor3 → Option Tensor3
  | .causal c, x => c.forward x
  | .noncausal c, x => c.forward x

/-- `Highway`: hidden size `d` and the inner convolution `conv`. -/
structure Highway where
  d : Nat
  conv : HighwayConv

/-- `Highway.__init__`: the inner convolution maps `hidden` to `2*hidden`
channels. -/
def Highway.init (hidden kernel_size dilation : Nat) (causal : Bool)
    (w : Nat → Nat → Nat → ℚ) (bias : Nat → ℚ) : Highway :=
  { d := hidden
    conv := if causal then
        .causal (CausalConv1d.init hidden (2 * hidden) kernel_size dilation w bias)
      else
        .noncausal (NonCausalConv1d.init hidden (2 * hidden) kernel_size dilation w bias) }

/-- The inner convolution's output (`Hout = self.conv(x)` in the source). -/
def Highway.convForward (hw : Highway) (x : Tensor3) : Option Tensor3 :=
  hw.conv.forward x

/-- `Highway.forward`: split `Hout` channel-wise into `H1 = Hout[:,:d,:]`
and `H2 = Hout[:,d:,:]`, return `σ(H1)*H2 + (1-σ(H1))*x` with `σ` the
(abstract) elementwise sigmoid; each elementwise product and the sum use
PyTorch broadcasting. -/
def Highway.forward (hw : Highway) (σ : ℚ → ℚ) (x : Tensor3) : Option Tensor3 :=
  match hw.conv.forward x with
  | none => none
  | some Hout =>
    let H1 : Tensor3 :=
      { batch := Hout.batch, channels := min hw.d Hout.channels, len := Hout.len,
        data := Hout.data }
    let H2 : Tensor3 :=
      { batch := Hout.batch, channels := Hout.channels - hw.d, len := Hout.len,
        data := fun b c t => Hout.data b (hw.d + c) t }
    match Tensor3.zipWith (fun a b => a * b) (H1.map σ) H2 with
    | none => none
    | some t1 =>
      match Tensor3.zipWith (fun a b => a * b) (H1.map fun v => 1 - σ v) x with
      | none => none
      | some t2 => Tensor3.zipWith (fun a b => a + b) t1 t2

/-! Basic shape lemmas -/

lemma Conv1d.forward_dims (c : Conv1d) (x y : Tensor3) (h : c.forward x = some y) :
    y.batch = x.batch ∧ y.channels = c.out_channels ∧
      y.len = (c.outLen x.len).toNat ∧ y.data = c.outData x := by
  unfold Conv1d.forward at h
  split at h
  · cases h
    exact ⟨rfl, rfl, rfl, rfl⟩
  · cases h

/-- `Conv1d.forward` on a well-shaped input. -/
lemma Conv1d.forward_eq_some (c : Conv1d) (x : Tensor3)
    (hch : x.channels = c.in_channels) (hout : 1 ≤ c.outLen x.len) :
    c.forward x = some { batch := x.batch, channels := c.out_channels,
                         len := (c.outLen x.len).toNat, data := c.outData x } := by
  unfold Conv1d.forward
  rw [if_pos ⟨hch, hout⟩]

/-- A `CausalConv1d` whose trim amount matches the configured padding, which
itself equals the convolution's length growth, preserves the sequence length
and returns the raw convolution data. -/
lemma CausalConv1d.forward_eq (m : CausalConv1d) (x : Tensor3)
    (hch : x.channels = m.conv.in_channels)
    (hpc : m.conv.padding = m.padding)
    (hgrow : m.conv.dilation * (m.conv.kernel_size - 1) = m.padding)
    (hL : 1 ≤ x.len) :
    m.forward x = some { batch := x.batch, channels := m.conv.out_channels,
                         len := x.len, data := m.conv.outData x } := by
  have hout : 1 ≤ m.conv.outLen x.len := by
    simp only [Conv1d.outLen, hgrow, hpc]
    omega
  unfold CausalConv1d.forward
  rw [Conv1d.forward_eq_some _ _ hch hout]
  dsimp only
  by_cases hp : 0 < m.padding
  · rw [if_pos hp]
    have hlen : (m.conv.outLen x.len).toNat - m.padding = x.len := by
      simp only [Conv1d.outLen, hgrow, hpc]
      omega
    rw [hlen]
  · rw [if_neg hp]
    have hlen : (m.conv.outLen x.len).toNat = x.len := by
      simp only [Conv1d.outLen, hgrow, hpc]
      omega
    rw [hlen]

/-- A successful `CausalConv1d.init ... |>.forward` returns the original
sequence length and the raw convolution data. -/
lemma CausalConv1d.forward_init_eq (inC outC K D : Nat)
    (w : Nat → Nat → Nat → ℚ) (bv : Nat → ℚ) (x : Tensor3)
    (hch : x.channels = inC) (hL : 1 ≤ x.len) :
    (CausalConv1d.init inC outC K D w bv).forward x =
      some { batch := x.batch, channels := outC, len := x.len,
             data := (CausalConv1d.init inC outC K D w bv).conv.outData x } :=
  CausalConv1d.forward_eq _ x hch rfl (Nat.mul_comm D (K - 1)) hL

/-- A `NonCausalConv1d` whose doubled padding equals the convolution's length
growth (the even-parity case) preserves the sequence length. -/
lemma NonCausalConv1d.forward_eq_even (m : NonCausalConv1d) (x : Tensor3)
    (hch : x.channels = m.conv.in_channels)
    (hgrow : m.conv.dilation * (m.conv.kernel_size - 1) = 2 * m.conv.padding)
    (hL : 1 ≤ x.len) :
    m.forward x = some { batch := x.batch, channels := m.conv.out_channels,
                         len := x.len, data := m.conv.outData x } := by
  have hout : 1 ≤ m.conv.outLen x.len := by
    simp only [Conv1d.outLen, hgrow]
    omega
  unfold NonCausalConv1d.forward
  rw [Conv1d.forward_eq_some _ _ hch hout]
  have hlen : (m.conv.outLen x.len).toNat = x.len := by
    simp only [Conv1d.outLen, hgrow]
    omega
  rw [hlen]

/-- A `NonCausalConv1d` whose doubled padding falls one short of the
convolution's length growth (the odd-parity case) shortens the sequence by
one. -/
lemma NonCausalConv1d.forward_eq_odd (m : NonCausalConv1d) (x : Tensor3)
    (hch : x.channels = m.conv.in_channels)
    (hgrow : m.conv.dilation * (m.conv.kernel_size - 1) = 2 * m.conv.padding + 1)
    (hL : 2 ≤ x.len) :
    m.forward x = some { batch := x.batch, channels := m.conv.out_channels,
                         len := x.len - 1, data := m.conv.outData x } := by
  have hout : 1 ≤ m.conv.outLen x.len := by
    simp only [Conv1d.outLen, hgrow]
    omega
  unfold NonCausalConv1d.forward
  rw [Conv1d.forward_eq_some _ _ hch hout]
  have hlen : (m.conv.outLen x.len).toNat = x.len - 1 := by
    simp only [Conv1d.outLen, hgrow]
    omega
  rw [hlen]

/-- The even-parity arithmetic side condition holds for
`NonCausalConv1d.init` when `(K-1)*D` is even. -/
lemma NonCausalConv1d.init_grow_even (inC outC K D : Nat)
    (w : Nat → Nat → Nat → ℚ) (bv : Nat → ℚ) (heven : (K - 1) * D % 2 = 0) :
    (NonCausalConv1d.init inC outC K D w bv).conv.dilation *
        ((NonCausalConv1d.init inC outC K D w bv).conv.kernel_size - 1) =
      2 * (NonCausalConv1d.init inC outC K D w bv).conv.padding := by
  show D * (K - 1) = 2 * ((K - 1) * D / 2)
  rw [Nat.mul_comm D (K - 1)]
  omega

/-- The odd-parity arithmetic side condition holds for
`NonCausalConv1d.init` when `(K-1)*D` is odd. -/
lemma NonCausalConv1d.init_grow_odd (inC outC K D : Nat)
    (w : Nat → Nat → Nat → ℚ) (bv : Nat → ℚ) (hodd : (K - 1) * D % 2 = 1) :
    (NonCausalConv1d.init inC outC K D w bv).conv.dilation *
        ((NonCausalConv1d.init inC outC K D w bv).conv.kernel_size - 1) =
      2 * (NonCausalConv1d.init inC outC K D w bv).conv.padding + 1 := by
  show D * (K - 1) = 2 * ((K - 1) * D / 2) + 1
  rw [Nat.mul_comm D (K - 1)]
  omega

/-- When the padding is at least the dilated kernel reach, the convolution
entry at position `t` depends only on input positions `≤ t`. -/
lemma Conv1d.outData_causal (c : Conv1d) (x y : Tensor3)
    (hlen : x.len = y.len)
    (hpad : c.dilation * (c.kernel_size - 1) ≤ c.padding)
    (t : Nat)
    (hagree : ∀ b ch s, s ≤ t → x.data b ch s = y.data b ch s) :
    ∀ b oc, c.outData x b oc t = c.outData y b oc t := by
  intro b oc
  unfold Conv1d.outData
  congr 1
  refine Finset.sum_congr rfl fun ic _ => ?_
  refine Finset.sum_congr rfl fun k hk => ?_
  congr 1
  have hkd : k * c.dilation ≤ c.padding := by
    calc k * c.dilation ≤ (c.kernel_size - 1) * c.dilation :=
          Nat.mul_le_mul_right _ (by have := Finset.mem_range.mp hk; omega)
      _ = c.dilation * (c.kernel_size - 1) := Nat.mul_comm _ _
      _ ≤ c.padding := hpad
  unfold Conv1d.padded
  rw [hlen]
  split_ifs with h
  · exact hagree b ic _ (by omega)
  · rfl

/-! The claims -/

/-- Claim C1: for every kernel size `K ≥ 1` and dilation `D ≥ 1` and every
input of shape (batch, in_channels, seq_len) with `seq_len ≥ 1`,
`CausalConv1d.forward` returns a tensor whose sequence length equals the
input's (regardless of the parity of `(K-1)*D`) and whose channel count is
the configured `out_channels`. -/
theorem claim_C1 (inC outC K D : Nat) (w : Nat → Nat → Nat → ℚ) (bv : Nat → ℚ)
    (x : Tensor3) (hK : 1 ≤ K) (hD : 1 ≤ D) (hL : 1 ≤ x.len)
    (hch : x.channels = inC) :
    ∃ y : Tensor3, (CausalConv1d.init inC outC K D w bv).forward x = some y ∧
      y.len = x.len ∧ y.channels = outC ∧ y.batch = x.batch :=
  ⟨_, CausalConv1d.forward_init_eq inC outC K D w bv x hch hL, rfl, rfl, rfl⟩

/-- Constant-zero weights used to instantiate the claims on concrete layers. -/
def wZero : Nat → Nat → Nat → ℚ := fun _ _ _ => 0

/-- Constant-zero bias used to instantiate the claims on concrete layers. -/
def bZero : Nat → ℚ := fun _ => 0

/-- A concrete input tensor of shape (2, 3, 5). -/
def xSample : Tensor3 := ⟨2, 3, 5, fun _ _ _ => 1⟩

/-- Witness for claim C1 at a concrete layer and input. -/
theorem claim_C1_witness :
    ∃ y : Tensor3, (CausalConv1d.init 3 4 2 3 wZero bZero).forward xSample = some y ∧
      y.len = 5 ∧ y.channels = 4 ∧ y.batch = 2 :=
  claim_C1 3 4 2 3 wZero bZero xSample (by decide) (by decide) (by decide) rfl

/-- Claim C2: `CausalConv1d` is causal: two inputs that agree at all sequence
positions `≤ t` (everywhere in batch and channel) yield outputs that agree at
position `t`; equivalently changing the input at any position `p > t` cannot
change the output at `t`. -/
theorem claim_C2 (inC outC K D : Nat) (w : Nat → Nat → Nat → ℚ) (bv : Nat → ℚ)
    (x x' : Tensor3) (t : Nat)
    (hlen : x.len = x'.len) (hch : x.channels = inC) (hch' : x'.channels = inC)
    (hL : 1 ≤ x.len)
    (hagree : ∀ b c s, s ≤ t → x.data b c s = x'.data b c s) :
    ∃ y y' : Tensor3,
      (CausalConv1d.init inC outC K D w bv).forward x = some y ∧
        (CausalConv1d.init inC outC K D w bv).forward x' = some y' ∧
        ∀ b oc, y.data b oc t = y'.data b oc t := by
  refine ⟨_, _, CausalConv1d.forward_init_eq inC outC K D w bv x hch hL,
    CausalConv1d.forward_init_eq inC outC K D w bv x' hch' (hlen ▸ hL), ?_⟩
  intro b oc
  exact Conv1d.outData_causal _ x x' hlen
    (le_of_eq (Nat.mul_comm D (K - 1))) t hagree b oc

/-- Witness for claim C2 at a concrete layer, two (equal) inputs and `t = 1`. -/
theorem claim_C2_witness :
    ∃ y y' : Tensor3,
      (CausalConv1d.init 3 4 2 3 wZero bZero).forward xSample = some y ∧
        (CausalConv1d.init 3 4 2 3 wZero bZero).forward xSample = some y' ∧
        ∀ b oc, y.data b oc 1 = y'.data b oc 1 :=
  claim_C2 3 4 2 3 wZero bZero xSample xSample 1 rfl rfl rfl (by decide)
    (fun _ _ _ _ => rfl)

/-- Claim C5: when `(K-1)*D` is even, `NonCausalConv1d.forward` preserves the
sequence length and produces the configured `out_channels` channels. -/
theorem claim_C5 (inC outC K D : Nat) (w : Nat → Nat → Nat → ℚ) (bv : Nat → ℚ)
    (x : Tensor3) (hK : 1 ≤ K) (hD : 1 ≤ D) (hL : 1 ≤ x.len)
    (hch : x.channels = inC) (heven : (K - 1) * D % 2 = 0) :
    ∃ y : Tensor3, (NonCausalConv1d.init inC outC K D w bv).forward x = some y ∧
      y.batch = x.batch ∧ y.channels = outC ∧ y.len = x.len :=
  ⟨_, NonCausalConv1d.forward_eq_even _ x hch
      (NonCausalConv1d.init_grow_even inC outC K D w bv heven) hL, rfl, rfl, rfl⟩

/-- Witness for claim C5 at a concrete layer and input (`K = 3`, `D = 3`). -/
theorem claim_C5_witness :
    ∃ y : Tensor3, (NonCausalConv1d.init 3 4 3 3 wZero bZero).forward xSample = some y ∧
      y.batch = 2 ∧ y.channels = 4 ∧ y.len = 5 :=
  claim_C5 3 4 3 3 wZero bZero xSample (by decide) (by decide) (by decide) rfl
    (by decide)

/-- Claim C6: when `(K-1)*D` is odd and the input is long enough for the
convolution to be defined, `NonCausalConv1d.forward` raises no error and
returns a tensor whose sequence length is exactly the input's minus one. -/
theorem claim_C6 (inC outC K D : Nat) (w : Nat → Nat → Nat → ℚ) (bv : Nat → ℚ)
    (x : Tensor3) (hL : 2 ≤ x.len)
    (hch : x.channels = inC) (hodd : (K - 1) * D % 2 = 1) :
    ∃ y : Tensor3, (NonCausalConv1d.init inC outC K D w bv).forward x = some y ∧
      y.len + 1 = x.len :=
  ⟨_, NonCausalConv1d.forward_eq_odd _ x hch
      (NonCausalConv1d.init_grow_odd inC outC K D w bv hodd) hL,
    by show x.len - 1 + 1 = x.len; omega⟩

/-- Witness for claim C6 at a concrete layer and input (`K = 2`, `D = 1`). -/
theorem claim_C6_witness :
    ∃ y : Tensor3, (NonCausalConv1d.init 3 4 2 1 wZero bZero).forward xSample = some y ∧
      y.len + 1 = 5 :=
  claim_C6 3 4 2 1 wZero bZero xSample (by decide) rfl (by decide)

/-! The left-only-padding reference algorithm for claim C7 -/

/-- The input grown by `p` zeros on the left only. -/
def leftPad (p : Nat) (x : Tensor3) : Tensor3 :=
  { batch := x.batch, channels := x.channels, len := x.len + p,
    data := fun b c i => if p ≤ i then x.data b c (i - p) else 0 }

/-- The spec's reference algorithm for the causal convolution: left-pad the
input with `(K-1)*D` zeros, no right padding, then convolve with no further
implicit padding. -/
def causalLeftPadForward (inC outC K D : Nat) (w : Nat → Nat → Nat → ℚ)
    (bv : Nat → ℚ) (x : Tensor3) : Option Tensor3 :=
  Conv1d.forward
    { in_channels := inC, out_channels := outC, kernel_size := K,
      padding := 0, dilation := D, weight := w, bias := bv }
    (leftPad ((K - 1) * D) x)

/-- At every in-range position, padding both sides by `p` gives the same
convolution entry as convolving the left-only-padded input without implicit
padding, provided `p` covers the dilated kernel reach. -/
lemma Conv1d.outData_leftpad (c c' : Conv1d) (x : Tensor3) (t b oc : Nat)
    (hin : c'.in_channels = c.in_channels)
    (hker : c'.kernel_size = c.kernel_size)
    (hdil : c'.dilation = c.dilation)
    (hw : c'.weight = c.weight) (hb : c'.bias = c.bias) (hp : c'.padding = 0)
    (ht : t < x.len)
    (hreach : c.dilation * (c.kernel_size - 1) ≤ c.padding) :
    c.outData x b oc t = c'.outData (leftPad c.padding x) b oc t := by
  obtain ⟨cin, cout, cK, cp, cD, cw, cb⟩ := c
  obtain ⟨din, dout, dK, dp, dD, dw, db⟩ := c'
  dsimp only at hin hker hdil hw hb hp hreach ⊢
  unfold Conv1d.outData
  dsimp only
  rw [hin, hker, hdil, hw, hb, hp]
  congr 1
  refine Finset.sum_congr rfl fun ic _ => ?_
  refine Finset.sum_congr rfl fun k hk => ?_
  congr 1
  have hkD : k * cD ≤ cp := by
    have hkK : k < cK := Finset.mem_range.mp hk
    calc k * cD ≤ (cK - 1) * cD := Nat.mul_le_mul_right _ (by omega)
      _ = cD * (cK - 1) := Nat.mul_comm _ _
      _ ≤ cp := hreach
  unfold Conv1d.padded leftPad
  dsimp only
  simp only [Nat.zero_add, Nat.sub_zero, Nat.zero_le, true_and]
  split_ifs <;> first | rfl | omega

/-- Claim C7: the implemented pad-both-sides-then-trim strategy of
`CausalConv1d.forward` computes exactly the tensor obtained by convolving
the left-only-padded input: same shape and the same entries at every
in-range position. -/
theorem claim_C7 (inC outC K D : Nat) (w : Nat → Nat → Nat → ℚ) (bv : Nat → ℚ)
    (x : Tensor3) (hch : x.channels = inC) (hL : 1 ≤ x.len) :
    ∃ y z : Tensor3,
      (CausalConv1d.init inC outC K D w bv).forward x = some y ∧
        causalLeftPadForward inC outC K D w bv x = some z ∧
        y.batch = z.batch ∧ y.channels = z.channels ∧ y.len = z.len ∧
        ∀ b oc t, t < y.len → y.data b oc t = z.data b oc t := by
  have hy := CausalConv1d.forward_init_eq inC outC K D w bv x hch hL
  have hgrow : (D * (K - 1) : Nat) = (K - 1) * D := Nat.mul_comm _ _
  have hout0 : 1 ≤ Conv1d.outLen
      { in_channels := inC, out_channels := outC, kernel_size := K,
        padding := 0, dilation := D, weight := w, bias := bv }
      (leftPad ((K - 1) * D) x).len := by
    simp only [Conv1d.outLen, leftPad, hgrow]
    omega
  have hz := Conv1d.forward_eq_some
    { in_channels := inC, out_channels := outC, kernel_size := K,
      padding := 0, dilation := D, weight := w, bias := bv }
    (leftPad ((K - 1) * D) x) (by simpa [leftPad] using hch) hout0
  have hzlen : (Conv1d.outLen
      { in_channels := inC, out_channels := outC, kernel_size := K,
        padding := 0, dilation := D, weight := w, bias := bv }
      (leftPad ((K - 1) * D) x).len).toNat = x.len := by
    simp only [Conv1d.outLen, leftPad, hgrow]
    omega
  refine ⟨_, _, hy, hz, rfl, rfl, hzlen.symm, ?_⟩
  intro b oc t ht
  exact Conv1d.outData_leftpad (CausalConv1d.init inC outC K D w bv).conv _ x t b oc
    rfl rfl rfl rfl rfl rfl ht (le_of_eq hgrow)

/-- Witness for claim C7 at a concrete layer and input. -/
theorem claim_C7_witness :
    ∃ y z : Tensor3,
      (CausalConv1d.init 3 4 2 3 wZero bZero).forward xSample = some y ∧
        causalLeftPadForward 3 4 2 3 wZero bZero xSample = some z ∧
        y.batch = z.batch ∧ y.channels = z.channels ∧ y.len = z.len ∧
        ∀ b oc t, t < y.len → y.data b oc t = z.data b oc t :=
  claim_C7 3 4 2 3 wZero bZero xSample rfl (by decide)

/-! Broadcasting and Highway lemmas -/

lemma bcastDim_self (a : Nat) : bcastDim a a = some a := by
  unfold bcastDim
  simp

lemma bidx_idem (n i : Nat) : bidx n (bidx n i) = bidx n i := by
  by_cases h : n = 1 <;> simp [bidx, h]

lemma bidx_of_lt {n i : Nat} (h : i < n) : bidx n i = i := by
  by_cases h1 : n = 1 <;> simp [bidx, h1]
  omega

lemma bidx_le (n i : Nat) : bidx n i ≤ i := by
  by_cases h : n = 1 <;> simp [bidx, h]

/-- `zipWith` on operands of identical dimensions. -/
lemma Tensor3.zipWith_eq_of_dims (f : ℚ → ℚ → ℚ) (x y : Tensor3)
    (hb : y.batch = x.batch) (hc : y.channels = x.channels) (hl : y.len = x.len) :
    Tensor3.zipWith f x y = some
      { batch := x.batch, channels := x.channels, len := x.len,
        data := fun b c t =>
          f (x.data (bidx x.batch b) (bidx x.channels c) (bidx x.len t))
            (y.data (bidx x.batch b) (bidx x.channels c) (bidx x.len t)) } := by
  unfold Tensor3.zipWith
  rw [hb, hc, hl, bcastDim_self, bcastDim_self, bcastDim_self]

/-- `zipWith` on two structure literals sharing their dimensions. -/
lemma Tensor3.zipWith_mk (f : ℚ → ℚ → ℚ) (B C L : Nat)
    (g h : Nat → Nat → Nat → ℚ) :
    Tensor3.zipWith f ⟨B, C, L, g⟩ ⟨B, C, L, h⟩ = some
      ⟨B, C, L, fun b c t =>
        f (g (bidx B b) (bidx C c) (bidx L t)) (h (bidx B b) (bidx C c) (bidx L t))⟩ :=
  Tensor3.zipWith_eq_of_dims f ⟨B, C, L, g⟩ ⟨B, C, L, h⟩ rfl rfl rfl

/-- `zipWith` fails when the sequence axis cannot broadcast. -/
lemma Tensor3.zipWith_none_of_len (f : ℚ → ℚ → ℚ) (x y : Tensor3)
    (h : bcastDim x.len y.len = none) :
    Tensor3.zipWith f x y = none := by
  unfold Tensor3.zipWith
  rw [h]
  cases bcastDim x.batch y.batch <;> cases bcastDim x.channels y.channels <;> rfl

lemma CausalConv1d.causal_forward_dims (m : CausalConv1d) (x y : Tensor3)
    (h : m.forward x = some y) :
    y.batch = x.batch ∧ y.channels = m.conv.out_channels := by
  unfold CausalConv1d.forward at h
  cases hc : m.conv.forward x with
  | none => rw [hc] at h; cases h
  | some z =>
    rw [hc] at h
    obtain ⟨hb, hch, -, -⟩ := Conv1d.forward_dims m.conv x z hc
    dsimp only at h
    split at h <;> cases h <;> exact ⟨hb, hch⟩

lemma NonCausalConv1d.noncausal_forward_dims (m : NonCausalConv1d) (x y : Tensor3)
    (h : m.forward x = some y) :
    y.batch = x.batch ∧ y.channels = m.conv.out_channels := by
  unfold NonCausalConv1d.forward at h
  obtain ⟨hb, hch, -, -⟩ := Conv1d.forward_dims m.conv x y h
  exact ⟨hb, hch⟩

/-- The inner convolution of `Highway.init` outputs the input batch size and
`2*hidden` channels, whichever mode was selected. -/
lemma Highway.init_conv_shape (H K D : Nat) (causal : Bool)
    (w : Nat → Nat → Nat → ℚ) (bv : Nat → ℚ) (x Hout : Tensor3)
    (h : (Highway.init H K D causal w bv).conv.forward x = some Hout) :
    Hout.batch = x.batch ∧ Hout.channels = 2 * H := by
  cases causal with
  | true =>
    simp only [Highway.init, if_true, HighwayConv.forward] at h
    exact CausalConv1d.causal_forward_dims _ x Hout h
  | false =>
    simp only [Highway.init, if_false, HighwayConv.forward] at h
    exact NonCausalConv1d.noncausal_forward_dims _ x Hout h

/-- Closed form of `Highway.forward` when the inner convolution succeeds
with a length-preserving, channel-doubling output. -/
lemma Highway.forward_some (hw : Highway) (σ : ℚ → ℚ) (x Hout : Tensor3)
    (hconv : hw.conv.forward x = some Hout)
    (hB : Hout.batch = x.batch) (hC : Hout.channels = 2 * hw.d)
    (hCx : x.channels = hw.d) (hL : Hout.len = x.len) :
    hw.forward σ x = some
      { batch := x.batch, channels := hw.d, len := x.len,
        data := fun b c t =>
          σ (Hout.data (bidx x.batch b) (bidx hw.d c) (bidx x.len t)) *
              Hout.data (bidx x.batch b) (hw.d + bidx hw.d c) (bidx x.len t) +
            (1 - σ (Hout.data (bidx x.batch b) (bidx hw.d c) (bidx x.len t))) *
              x.data (bidx x.batch b) (bidx hw.d c) (bidx x.len t) } := by
  obtain ⟨d, cv⟩ := hw
  obtain ⟨hb1, hc1, hl1, hdata⟩ := Hout
  obtain ⟨xb, xc, xl, xdata⟩ := x
  dsimp only at hconv hB hC hCx hL ⊢
  subst hB hC hCx hL
  have hmin : min xc (2 * xc) = xc := by omega
  have hsub : 2 * xc - xc = xc := by omega
  unfold Highway.forward
  rw [hconv]
  dsimp only [Tensor3.map]
  rw [hmin, hsub]
  rw [Tensor3.zipWith_mk]
  dsimp only
  rw [Tensor3.zipWith_mk]
  dsimp only
  rw [Tensor3.zipWith_mk]
  refine congrArg some ?_
  congr 1
  funext b c t
  dsimp only
  simp only [bidx_idem]

/-- Claim C3: on an input of shape (batch, H, seq_len) whose inner
convolution output `Hout` keeps the sequence length, `Highway.forward` is the
element-wise gated combination `σ(G)*T + (1-σ(G))*x`, with `G` the first `H`
channels and `T` the last `H` channels of `Hout`. -/
theorem claim_C3 (H K D : Nat) (causal : Bool)
    (w : Nat → Nat → Nat → ℚ) (bv : Nat → ℚ) (σ : ℚ → ℚ) (x Hout : Tensor3)
    (hch : x.channels = H)
    (hconv : (Highway.init H K D causal w bv).convForward x = some Hout)
    (hlen : Hout.len = x.len) :
    ∃ y : Tensor3, (Highway.init H K D causal w bv).forward σ x = some y ∧
      y.batch = x.batch ∧ y.channels = H ∧ y.len = x.len ∧
      ∀ b c t, b < x.batch → c < H → t < x.len →
        y.data b c t = σ (Hout.data b c t) * Hout.data b (H + c) t +
          (1 - σ (Hout.data b c t)) * x.data b c t := by
  obtain ⟨hB, hC⟩ := Highway.init_conv_shape H K D causal w bv x Hout hconv
  refine ⟨_, Highway.forward_some _ σ x Hout hconv hB hC hch hlen, rfl, rfl, rfl, ?_⟩
  intro b c t hb hc ht
  dsimp only
  simp only [Highway.init]
  rw [bidx_of_lt hb, bidx_of_lt hc, bidx_of_lt ht]

/-- A concrete input tensor of shape (1, 1, 2). -/
def xOne : Tensor3 := ⟨1, 1, 2, fun _ _ _ => 1⟩

/-- The concrete inner-convolution output used to instantiate claim C3. -/
def HoutSample : Tensor3 :=
  ⟨1, 2, 2, (CausalConv1d.init 1 2 1 1 wZero bZero).conv.outData xOne⟩

/-- Witness for claim C3 at a concrete causal highway layer and input. -/
theorem claim_C3_witness :
    ∃ y : Tensor3, (Highway.init 1 1 1 true wZero bZero).forward id xOne = some y ∧
      y.batch = 1 ∧ y.channels = 1 ∧ y.len = 2 ∧
      ∀ b c t, b < 1 → c < 1 → t < 2 →
        y.data b c t = id (HoutSample.data b c t) * HoutSample.data b (1 + c) t +
          (1 - id (HoutSample.data b c t)) * xOne.data b c t :=
  claim_C3 1 1 1 true wZero bZero id xOne HoutSample rfl rfl rfl

/-- Counterexample to claim C4 as stated: the valid configuration
(hidden 1, kernel 2, dilation 1, causal = false) on an input of shape
(1, 1, 3) with seq_len 3 ≥ 1 makes `Highway.forward` fail with a shape
error (no tensor is returned at all), so the output shape does not equal
the input shape for every valid configuration. -/
theorem claim_C4_cex :
    (Highway.init 1 2 1 false wZero bZero).forward id ⟨1, 1, 3, fun _ _ _ => 0⟩ =
      none := by
  rfl

/-- Claim C4 (amended): for every configuration with `H ≥ 1`, `K ≥ 1`,
`D ≥ 1` that is causal or has `(K-1)*D` even — the odd-parity non-causal
case fails, see the counterexample — and every input of shape
(batch, H, seq_len) with `seq_len ≥ 1`, `Highway.forward` returns a tensor
of exactly the input's shape; in particular its channel count is `H`. -/
theorem claim_C4 (H K D : Nat) (causal : Bool)
    (w : Nat → Nat → Nat → ℚ) (bv : Nat → ℚ) (σ : ℚ → ℚ) (x : Tensor3)
    (hH : 1 ≤ H) (hK : 1 ≤ K) (hD : 1 ≤ D) (hL : 1 ≤ x.len)
    (hch : x.channels = H)
    (hok : causal = true ∨ (K - 1) * D % 2 = 0) :
    ∃ y : Tensor3, (Highway.init H K D causal w bv).forward σ x = some y ∧
      y.batch = x.batch ∧ y.channels = x.channels ∧ y.len = x.len := by
  cases causal with
  | true =>
    have hconv : (Highway.init H K D true w bv).conv.forward x =
        some ⟨x.batch, 2 * H, x.len,
          (CausalConv1d.init H (2 * H) K D w bv).conv.outData x⟩ := by
      show (CausalConv1d.init H (2 * H) K D w bv).forward x = _
      exact CausalConv1d.forward_init_eq H (2 * H) K D w bv x hch hL
    exact ⟨_, Highway.forward_some _ σ x _ hconv rfl rfl hch rfl, rfl,
      hch.symm, rfl⟩
  | false =>
    have heven : (K - 1) * D % 2 = 0 := by
      rcases hok with h | h
      · cases h
      · exact h
    have hconv : (Highway.init H K D false w bv).conv.forward x =
        some ⟨x.batch, 2 * H, x.len,
          (NonCausalConv1d.init H (2 * H) K D w bv).conv.outData x⟩ := by
      show (NonCausalConv1d.init H (2 * H) K D w bv).forward x = _
      exact NonCausalConv1d.forward_eq_even _ x hch
        (NonCausalConv1d.init_grow_even H (2 * H) K D w bv heven) hL
    exact ⟨_, Highway.forward_some _ σ x _ hconv rfl rfl hch rfl, rfl,
      hch.symm, rfl⟩

/-- Witness for the amended claim C4 at a concrete non-causal layer with
even `(K-1)*D` and a concrete input. -/
theorem claim_C4_witness :
    ∃ y : Tensor3, (Highway.init 3 3 3 false wZero bZero).forward id xSample = some y ∧
      y.batch = 2 ∧ y.channels = 3 ∧ y.len = 5 :=
  claim_C4 3 3 3 false wZero bZero id xSample (by decide) (by decide) (by decide)
    (by decide) rfl (Or.inr (by decide))

/-- Claim C8: a non-causal highway layer with `(K-1)*D` odd fails with a
shape-mismatch error (returns no tensor) on every input of shape
(batch, H, seq_len) whose shortened length `seq_len - 1` is not
broadcast-compatible with `seq_len` (`seq_len ≥ 3`). -/
theorem claim_C8 (H K D : Nat) (w : Nat → Nat → Nat → ℚ) (bv : Nat → ℚ)
    (σ : ℚ → ℚ) (x : Tensor3)
    (hch : x.channels = H) (hodd : (K - 1) * D % 2 = 1) (hL : 3 ≤ x.len) :
    (Highway.init H K D false w bv).forward σ x = none := by
  have hconv : (NonCausalConv1d.init H (2 * H) K D w bv).forward x =
      some ⟨x.batch, 2 * H, x.len - 1,
        (NonCausalConv1d.init H (2 * H) K D w bv).conv.outData x⟩ :=
    NonCausalConv1d.forward_eq_odd _ x hch
      (NonCausalConv1d.init_grow_odd H (2 * H) K D w bv hodd) (by omega)
  have hmin : min H (2 * H) = H := by omega
  have hsub : 2 * H - H = H := by omega
  have hconv2 : (Highway.init H K D false w bv).conv.forward x =
      some ⟨x.batch, 2 * H, x.len - 1,
        (NonCausalConv1d.init H (2 * H) K D w bv).conv.outData x⟩ := by
    show (NonCausalConv1d.init H (2 * H) K D w bv).forward x = _
    exact hconv
  unfold Highway.forward
  rw [hconv2]
  dsimp only [Tensor3.map]
  simp only [Highway.init]
  rw [hmin, hsub]
  rw [Tensor3.zipWith_mk]
  dsimp only
  have hnone : bcastDim (x.len - 1) x.len = none := by
    unfold bcastDim
    split_ifs with h1 h2 h3
    · exact absurd h1 (by omega)
    · exact absurd h2 (by omega)
    · exact absurd h3 (by omega)
    · rfl
  rw [Tensor3.zipWith_none_of_len _ _ _ hnone]

/-- Witness for claim C8 at a concrete non-causal layer and input. -/
theorem claim_C8_witness :
    (Highway.init 1 2 1 false wZero bZero).forward id ⟨1, 1, 4, fun _ _ _ => 1⟩ =
      none :=
  claim_C8 1 2 1 wZero bZero id ⟨1, 1, 4, fun _ _ _ => 1⟩ rfl (by decide) (by decide)

/-- Claim C9: a causal highway layer is itself causal: two inputs of equal
shape agreeing at every sequence position `≤ t` yield highway outputs that
agree at position `t`, since the gate and the transform come from the causal
inner convolution and the residual uses the input at position `t` only. -/
theorem claim_C9 (H K D : Nat) (w : Nat → Nat → Nat → ℚ) (bv : Nat → ℚ)
    (σ : ℚ → ℚ) (x x' : Tensor3) (t : Nat)
    (hxb : x.batch = x'.batch) (hlen : x.len = x'.len)
    (hch : x.channels = H) (hch' : x'.channels = H) (hL : 1 ≤ x.len)
    (hagree : ∀ b c s, s ≤ t → x.data b c s = x'.data b c s) :
    ∃ y y' : Tensor3,
      (Highway.init H K D true w bv).forward σ x = some y ∧
        (Highway.init H K D true w bv).forward σ x' = some y' ∧
        ∀ b c, y.data b c t = y'.data b c t := by
  have hconv : (Highway.init H K D true w bv).conv.forward x =
      some ⟨x.batch, 2 * H, x.len,
        (CausalConv1d.init H (2 * H) K D w bv).conv.outData x⟩ := by
    show (CausalConv1d.init H (2 * H) K D w bv).forward x = _
    exact CausalConv1d.forward_init_eq H (2 * H) K D w bv x hch hL
  have hconv' : (Highway.init H K D true w bv).conv.forward x' =
      some ⟨x'.batch, 2 * H, x'.len,
        (CausalConv1d.init H (2 * H) K D w bv).conv.outData x'⟩ := by
    show (CausalConv1d.init H (2 * H) K D w bv).forward x' = _
    exact CausalConv1d.forward_init_eq H (2 * H) K D w bv x' hch' (by omega)
  refine ⟨_, _, Highway.forward_some _ σ x _ hconv rfl rfl hch rfl,
    Highway.forward_some _ σ x' _ hconv' rfl rfl hch' rfl, ?_⟩
  intro b c
  dsimp only
  rw [hxb, hlen]
  have ht2 : bidx x'.len t ≤ t := bidx_le _ _
  have hcaus : ∀ b2 oc,
      (CausalConv1d.init H (2 * H) K D w bv).conv.outData x b2 oc (bidx x'.len t) =
        (CausalConv1d.init H (2 * H) K D w bv).conv.outData x' b2 oc (bidx x'.len t) :=
    Conv1d.outData_causal _ x x' hlen (le_of_eq (Nat.mul_comm D (K - 1)))
      (bidx x'.len t) (fun b2 c2 s hs => hagree b2 c2 s (le_trans hs ht2))
  rw [hcaus, hcaus, hagree _ _ _ ht2]

/-- Witness for claim C9 at a concrete causal highway layer, two (equal)
inputs and `t = 0`. -/
theorem claim_C9_witness :
    ∃ y y' : Tensor3,
      (Highway.init 1 1 1 true wZero bZero).forward id xOne = some y ∧
        (Highway.init 1 1 1 true wZero bZero).forward id xOne = some y' ∧
        ∀ b c, y.data b c 0 = y'.data b c 0 :=
  claim_C9 1 1 1 wZero bZero id xOne xOne 0 rfl rfl rfl rfl (by decide)
    (fun _ _ _ _ => rfl)

/-- Claim C10: forward evaluation of all three modules is deterministic:
identical layer parameters (pointwise-equal weights, biases and sigmoid)
and identical input tensors give identical outputs. -/
theorem claim_C10 (inC outC H K D : Nat) (causal : Bool)
    (w w' : Nat → Nat → Nat → ℚ) (bv bv' : Nat → ℚ) (σ σ' : ℚ → ℚ)
    (x x' : Tensor3)
    (hw : ∀ a b c, w a b c = w' a b c) (hb : ∀ a, bv a = bv' a)
    (hσ : ∀ q, σ q = σ' q)
    (hxb : x.batch = x'.batch) (hxc : x.channels = x'.channels)
    (hxl : x.len = x'.len) (hxd : ∀ b c t, x.data b c t = x'.data b c t) :
    (NonCausalConv1d.init inC outC K D w bv).forward x =
        (NonCausalConv1d.init inC outC K D w' bv').forward x' ∧
      (CausalConv1d.init inC outC K D w bv).forward x =
        (CausalConv1d.init inC outC K D w' bv').forward x' ∧
      (Highway.init H K D causal w bv).forward σ x =
        (Highway.init H K D causal w' bv').forward σ' x' := by
  have hwe : w = w' := funext fun a => funext fun b => funext fun c => hw a b c
  have hbe : bv = bv' := funext hb
  have hσe : σ = σ' := funext hσ
  have hxe : x = x' := by
    obtain ⟨a1, a2, a3, a4⟩ := x
    obtain ⟨b1, b2, b3, b4⟩ := x'
    dsimp only at hxb hxc hxl hxd
    subst hxb hxc hxl
    congr 1
    funext b c t
    exact hxd b c t
  rw [hwe, hbe, hσe, hxe]
  exact ⟨rfl, rfl, rfl⟩

/-- Witness for claim C10 at concrete layers and input. -/
theorem claim_C10_witness :
    (NonCausalConv1d.init 3 4 2 1 wZero bZero).forward xSample =
        (NonCausalConv1d.init 3 4 2 1 wZero bZero).forward xSample ∧
      (CausalConv1d.init 3 4 2 1 wZero bZero).forward xSample =
        (CausalConv1d.init 3 4 2 1 wZero bZero).forward xSample ∧
      (Highway.init 3 2 1 true wZero bZero).forward id xSample =
        (Highway.init 3 2 1 true wZero bZero).forward id xSample :=
  claim_C10 3 4 3 2 1 true wZero wZero bZero bZero id id xSample xSample
    (fun _ _ _ => rfl) (fun _ => rfl) (fun _ => rfl) rfl rfl rfl
    (fun _ _ _ => rfl)

end DCTTS
